import Mathlib

/-!
# get-parent-device

A shallow embedding of `src/get-parent-device/main.cpp` and the properties of
its specification.

The program talks to three collaborators that are not part of the source:
the Windows device-configuration API (`SetupDiGetClassDevs`,
`SetupDiEnumDeviceInfo`, `SetupDiGetDeviceInstanceId`, `CM_Get_Parent`,
`CM_Get_Device_ID`), the string API (`lstrcmpi`) and the C++ `<regex>`
library.  They are gathered in the structure `Platform`; every function of
`main.cpp` is translated into a Lean function over a `Platform`, threading the
observable state of the process (standard output and the list of API calls
made so far) explicitly.
-/

namespace GetParentDevice

/-! ## Data model -/

/-- Device instance handle (`DEVINST`): an opaque reference handed out by the
configuration manager.  The program never computes with it. -/
abbrev DEVINST := Nat

/-- One element of the device information set, as the enumeration loop of
`main` sees it: the contents of `szDeviceInstanceId` after
`SetupDiGetDeviceInstanceId` and the `DevInst` member of `SP_DEVINFO_DATA`. -/
structure DeviceEntry where
  DeviceInstanceId : String
  DevInst : DEVINST
deriving DecidableEq, Repr

/-- The collaborators of the program.

* `SetupDiGetClassDevs enumerator` is `none` for `INVALID_HANDLE_VALUE`,
  otherwise the finite snapshot that `SetupDiEnumDeviceInfo` walks through;
* `CM_Get_Parent h` is `none` when the call does not return `CR_SUCCESS`;
* `CM_Get_Device_ID h` is `none` when the call does not return `CR_SUCCESS`;
* `CharLower` is the case mapping of the locale, used by `lstrcmpi`;
* `wregex pattern` is `none` when the constructor of `std::wregex` throws
  `std::regex_error`, otherwise the whole-string matcher `std::regex_match`
  of the compiled pattern. -/
structure Platform where
  SetupDiGetClassDevs : String → Option (List DeviceEntry)
  CM_Get_Parent : DEVINST → Option DEVINST
  CM_Get_Device_ID : DEVINST → Option String
  CharLower : Char → Char
  wregex : String → Option (String → Bool)

/-- The API calls recorded in the trace of a run: the request for the device
information set, the two lookups of the parent walk and the compilation of
the pattern.  Stepping through the device information set is not recorded. -/
inductive Call where
  | SetupDiGetClassDevs (enumerator : String)
  | CM_Get_Parent (h : DEVINST)
  | CM_Get_Device_ID (h : DEVINST)
  | wregex (pattern : String)
deriving DecidableEq, Repr

/-- Observable state of the running process: what has been written to
standard output and which API calls have been made, oldest first. -/
structure Process where
  stdout : String
  calls : List Call
deriving DecidableEq, Repr

/-- The state of a freshly started process. -/
def Process.start : Process := ⟨"", []⟩

/-- Record an API call. -/
def Process.call (s : Process) (c : Call) : Process := ⟨s.stdout, s.calls ++ [c]⟩

/-- The effect of `wprintf` once the format has been expanded to `text`. -/
def wprintf (text : String) (s : Process) : Process := ⟨s.stdout ++ text, s.calls⟩

/-- How a run of the program ends: `return n` from `main` or `exit(n)`
(`status n`), or the abort caused by an uncaught `std::regex_error`. -/
inductive Exit where
  | status (n : Nat)
  | regex_error
deriving DecidableEq, Repr

/-- A finished run. -/
structure Result where
  stdout : String
  calls : List Call
  exit : Exit
deriving DecidableEq, Repr

/-- Outcome of a block of `main` that may leave the function from the inside. -/
inductive Step (α : Type) where
  | cont (a : α) (s : Process)
  | exit (n : Nat) (s : Process)
  | throw (s : Process)

/-- The command line after `CommandLineToArgvW`: the program path `argv[0]`
and the remaining arguments. -/
structure CommandLine where
  program : String
  arguments : List String

/-- Value of `argc`. -/
def CommandLine.argc (cmd : CommandLine) : Nat := cmd.arguments.length + 1

/-- Value of `argv[i]`. -/
def CommandLine.argv (cmd : CommandLine) (i : Nat) : String :=
  (cmd.program :: cmd.arguments).getD i ""

/-! ## Constants -/

def ERR_BAD_ARGUMENTS : Nat := 1
def ERR_NO_DEVICES_FOUND : Nat := 2
def ERR_NO_DEVICE_INFO : Nat := 3

/-! ## `lstrcmpi` -/

/-- Lexicographic comparison of two strings after case mapping. -/
def compareFolded (f : Char → Char) : List Char → List Char → Int
  | [], [] => 0
  | [], _ :: _ => -1
  | _ :: _, [] => 1
  | a :: as, b :: bs =>
    if f a = f b then compareFolded f as bs
    else if f a < f b then -1 else 1

/-- The comparison `lstrcmpi`: zero exactly when the two strings are equal up
to the case mapping of the platform. -/
def lstrcmpi (os : Platform) (a b : String) : Int :=
  compareFolded os.CharLower a.data b.data

/-! ## The functions of `main.cpp` -/

/-- Translation of `GetParentDeviceInstanceId` (lines 92-107): `some (id, h)` stands for
`TRUE` with the two out-parameters filled in, `none` for `FALSE`. -/
def GetParentDeviceInstanceId (os : Platform) (hCurrentDeviceInstanceId : DEVINST)
    (s : Process) : Option (String × DEVINST) × Process :=
  let s1 := s.call (.CM_Get_Parent hCurrentDeviceInstanceId)
  match os.CM_Get_Parent hCurrentDeviceInstanceId with
  | some hParent =>
    let s2 := s1.call (.CM_Get_Device_ID hParent)
    match os.CM_Get_Device_ID hParent with
    | some szParent => (some (szParent, hParent), s2)
    | none => (none, s2)
  | none => (none, s1)

/-- Translation of `DeviceIdMatchesPattern` (lines 119-126): the pattern is compiled at
every call; `none` stands for the `std::regex_error` thrown by the
constructor of `std::wregex`. -/
def DeviceIdMatchesPattern (os : Platform) (pszDeviceInstanceId pszPattern : String)
    (s : Process) : Option Bool × Process :=
  let s1 := s.call (.wregex pszPattern)
  match os.wregex pszPattern with
  | some rRegex => (some (rRegex pszDeviceInstanceId), s1)
  | none => (none, s1)

/-- The loop of `GetExecutableName` (lines 169-176): `i` is the offset of
`pszExecutableName` from `pszExecutablePath`; the result is the offset of the
returned pointer.  The character at offset `length` is the terminator. -/
def GetExecutableName.scan (path : List Char) : Nat → Nat
  | 0 => 0
  | i + 1 =>
    if path.getD (i + 1) (Char.ofNat 0) = '\\' ∨ path.getD (i + 1) (Char.ofNat 0) = '/' then
      i + 2
    else GetExecutableName.scan path i

/-- Translation of `GetExecutableName` (lines 165-179). -/
def GetExecutableName (pszExecutablePath : String) : String :=
  ⟨pszExecutablePath.data.drop
    (GetExecutableName.scan pszExecutablePath.data pszExecutablePath.data.length)⟩

/-- The device identifier used in the examples of the usage text. -/
def exampleDeviceId : String :=
  "USBSTOR\\DISK&VEN_GENERIC&PROD_STORAGE_DEVICE&REV_0207\\000000000207&0"

/-- The text written by `ShowHelp` (lines 131-155). -/
def usage (pszProgramName : String) : String :=
  "Usage:\n\n"
  ++ "\t" ++ pszProgramName ++ " DII PATTERN\n\n"
  ++ "Arguments:\n\n"
  ++ "\tDII     - Device Instance ID of the Device whose parent is to be found\n"
  ++ "\tPATTERN - Regular expression to match Parent's Device Instance ID\n"
  ++ "\n"
  ++ "Examples:\n\n"
  ++ "Example 1. Get immediate parent:\n\n"
  ++ "\t" ++ pszProgramName ++ " \"" ++ exampleDeviceId ++ "\" \"" ++ ".*" ++ "\"\n\n"
  ++ "In this case the \".*\" will cause first found parent to be returned.\n"
  ++ "\n"
  ++ "Example 2. Get usb hub the device is connected to:\n\n"
  ++ "\t" ++ pszProgramName ++ " \"" ++ exampleDeviceId ++ "\" \"" ++ ".*\\\\ROOT_HUB.*" ++ "\"\n\n"
  ++ "The program will search \"up\" the device tree until it finds a parent with a matching Device Instance ID.\n"
  ++ "\n"

/-- Translation of `ShowHelp`. -/
def ShowHelp (pszProgramName : String) (s : Process) : Process :=
  wprintf (usage pszProgramName) s

/-- The inner loop of `main` (lines 247-272), `while (true)`, with a bound
`fuel` on the number of iterations; `none` means the bound was reached.

* `Step.cont` is the `break` of line 269;
* `Step.exit 0` is line 259, after the `wprintf` of line 258;
* `Step.throw` is the exception leaving `DeviceIdMatchesPattern`. -/
def parentWalk (os : Platform) (pszPattern : String) :
    Nat → DEVINST → Process → Option (Step Unit)
  | 0, _, _ => none
  | fuel + 1, hCurrentDeviceInstanceId, s =>
    match GetParentDeviceInstanceId os hCurrentDeviceInstanceId s with
    | (some (pszParentDeviceInstanceId, hParentDeviceInstanceId), s1) =>
      match DeviceIdMatchesPattern os pszParentDeviceInstanceId pszPattern s1 with
      | (some true, s2) => some (.exit 0 (wprintf (pszParentDeviceInstanceId ++ "\n") s2))
      | (some false, s2) => parentWalk os pszPattern fuel hParentDeviceInstanceId s2
      | (none, s2) => some (.throw s2)
    | (none, s1) => some (.cont () s1)

/-- The enumeration loop of `main` (lines 228-276) over the entries that
`SetupDiEnumDeviceInfo` still has to deliver, carrying `devIndex`; the value of
`Step.cont` is `devIndex` when the loop is left. -/
def deviceLoop (os : Platform) (pszSearched pszPattern : String) (fuel : Nat) :
    List DeviceEntry → Nat → Process → Option (Step Nat)
  | [], devIndex, s => some (.cont devIndex s)
  | devInfoData :: rest, devIndex, s =>
    if lstrcmpi os pszSearched devInfoData.DeviceInstanceId = 0 then
      match parentWalk os pszPattern fuel devInfoData.DevInst s with
      | none => none
      | some (.cont _ s1) => deviceLoop os pszSearched pszPattern fuel rest (devIndex + 1) s1
      | some (.exit n s1) => some (.exit n s1)
      | some (.throw s1) => some (.throw s1)
    else deviceLoop os pszSearched pszPattern fuel rest (devIndex + 1) s

/-- Close a run. -/
def Process.finish (s : Process) (e : Exit) : Result := ⟨s.stdout, s.calls, e⟩

/-- Translation of `main` (lines 197-288).  `fuel` bounds the number of
iterations of each parent walk; the result is `none` when a walk needs more. -/
def main (os : Platform) (fuel : Nat) (cmd : CommandLine) : Option Result :=
  let s0 := Process.start
  if cmd.argc ≠ 3 then
    some ((ShowHelp (GetExecutableName (cmd.argv 0)) s0).finish (.status ERR_BAD_ARGUMENTS))
  else
    let pszSearchedDeviceInstanceId := cmd.argv 1
    let pszParentDeviceInstanceIdPattern := cmd.argv 2
    let s1 := s0.call (.SetupDiGetClassDevs pszSearchedDeviceInstanceId)
    match os.SetupDiGetClassDevs pszSearchedDeviceInstanceId with
    | some devInfo =>
      match deviceLoop os pszSearchedDeviceInstanceId pszParentDeviceInstanceIdPattern fuel
          devInfo 0 s1 with
      | none => none
      | some (.cont devIndex s2) =>
        if devIndex = 0 then some (s2.finish (.status ERR_NO_DEVICES_FOUND))
        else some (s2.finish (.status 0))
      | some (.exit n s2) => some (s2.finish (.status n))
      | some (.throw s2) => some (s2.finish .regex_error)
    | none => some (s1.finish (.status ERR_NO_DEVICE_INFO))

/-! ## A small concrete platform

The scenario of the specification: the device `A\X\1` has the parent `B\Y\2`,
which has the parent `C\Z\3`, the root.  The pattern language of this
platform is the fragment of the regular expressions made of literal
characters, escaped characters, `.` and `*`; a pattern outside the fragment
(a leading `*`, a trailing backslash, a bracket or a parenthesis) is
rejected, as the constructor of `std::wregex` rejects a malformed pattern. -/

namespace Demo

/-- One character position of a pattern. -/
inductive Atom where
  | lit (c : Char)
  | any
deriving DecidableEq, Repr

/-- An atom, possibly starred. -/
inductive Piece where
  | one (a : Atom)
  | star (a : Atom)
deriving DecidableEq, Repr

/-- Whether an atom accepts a character. -/
def Atom.accepts : Atom → Char → Bool
  | .lit c, d => c == d
  | .any, _ => true

/-- Characters with a meaning that the fragment does not cover. -/
def reserved (c : Char) : Bool :=
  c == '*' || c == '(' || c == ')' || c == '[' || c == ']' || c == '+' || c == '?'
    || c == '{' || c == '}' || c == '|' || c == '^' || c == '$'

/-- Read a pattern; `fuel` bounds the number of characters read. -/
def parse : Nat → List Char → Option (List Piece)
  | 0, _ => none
  | _ + 1, [] => some []
  | fuel + 1, c :: rest =>
    if c = '\\' then
      match rest with
      | [] => none
      | e :: '*' :: rest2 => (parse fuel rest2).map (fun ps => Piece.star (.lit e) :: ps)
      | e :: rest2 => (parse fuel rest2).map (fun ps => Piece.one (.lit e) :: ps)
    else if reserved c then none
    else
      let a : Atom := if c = '.' then .any else .lit c
      match rest with
      | '*' :: rest2 => (parse fuel rest2).map (fun ps => Piece.star a :: ps)
      | _ => (parse fuel rest).map (fun ps => Piece.one a :: ps)

/-- Match a starred atom followed by the continuation `k`. -/
def matchStar (a : Atom) (k : List Char → Bool) : List Char → Bool
  | [] => k []
  | c :: cs => k (c :: cs) || (a.accepts c && matchStar a k cs)

/-- Whole-string match of a list of pieces. -/
def matchPieces : List Piece → List Char → Bool
  | [], s => s.isEmpty
  | .one a :: ps, s =>
    match s with
    | [] => false
    | c :: cs => a.accepts c && matchPieces ps cs
  | .star a :: ps, s => matchStar a (matchPieces ps) s

/-- The pattern compiler of the demo platform. -/
def wregex (pattern : String) : Option (String → Bool) :=
  (parse (pattern.data.length + 1) pattern.data).map (fun ps s => matchPieces ps s.data)

/-- The three devices of the scenario, in enumeration order. -/
def devices : List DeviceEntry :=
  [⟨"A\\X\\1", 1⟩, ⟨"B\\Y\\2", 2⟩, ⟨"C\\Z\\3", 3⟩]

/-- Parents in the scenario. -/
def parent : DEVINST → Option DEVINST
  | 1 => some 2
  | 2 => some 3
  | _ => none

/-- Identifiers in the scenario. -/
def ident : DEVINST → Option String
  | 1 => some "A\\X\\1"
  | 2 => some "B\\Y\\2"
  | 3 => some "C\\Z\\3"
  | _ => none

/-- The platform of the scenario. -/
def os : Platform where
  SetupDiGetClassDevs := fun _ => some devices
  CM_Get_Parent := parent
  CM_Get_Device_ID := ident
  CharLower := Char.toLower
  wregex := wregex

/-- The matcher that the pattern `C\\.*` compiles to. -/
def startsWithC : String → Bool :=
  fun s => matchPieces [.one (.lit 'C'), .one (.lit '\\'), .star .any] s.data

/-- The matcher that the pattern `.*` compiles to. -/
def anything : String → Bool :=
  fun s => matchPieces [.star .any] s.data

/-- The matcher that the pattern `NOPE.*` compiles to. -/
def startsWithNope : String → Bool :=
  fun s => matchPieces
    [.one (.lit 'N'), .one (.lit 'O'), .one (.lit 'P'), .one (.lit 'E'), .star .any] s.data

/-- The scenario with a fault: the identifier of the root `C\Z\3` cannot be
read. -/
def faulty : Platform where
  SetupDiGetClassDevs := fun _ => some devices
  CM_Get_Parent := parent
  CM_Get_Device_ID := fun h => if h = 3 then none else ident h
  CharLower := Char.toLower
  wregex := wregex

end Demo

/-! ## A platform with two entries equal up to letter case

The enumeration delivers two entries whose identifiers differ only in letter
case.  The first is a root; the second has the parent `ROOT\HUB\0`. -/

namespace Twins

/-- The two entries, in enumeration order. -/
def devices : List DeviceEntry :=
  [⟨"USB\\DISK\\1", 10⟩, ⟨"usb\\disk\\1", 11⟩]

/-- Only the second entry has a parent. -/
def parent : DEVINST → Option DEVINST
  | 11 => some 12
  | _ => none

/-- Identifiers of the three handles. -/
def ident : DEVINST → Option String
  | 10 => some "USB\\DISK\\1"
  | 11 => some "usb\\disk\\1"
  | 12 => some "ROOT\\HUB\\0"
  | _ => none

/-- The platform. -/
def os : Platform where
  SetupDiGetClassDevs := fun _ => some devices
  CM_Get_Parent := parent
  CM_Get_Device_ID := ident
  CharLower := Char.toLower
  wregex := Demo.wregex

end Twins

/-! ## Notions used by the specification -/

/-- What an observer of the process sees of a finished run: the text on
standard output and the way the run ended. -/
def Result.observable (r : Result) : String × Exit := (r.stdout, r.exit)

/-- Forget the trace of API calls of a step, keeping the output. -/
def Step.visible {α : Type} : Step α → Step α
  | .cont a s => .cont a ⟨s.stdout, []⟩
  | .exit n s => .exit n ⟨s.stdout, []⟩
  | .throw s => .throw ⟨s.stdout, []⟩

/-- The parent of `h` together with its identifier, when both lookups
succeed. -/
def readableParent (os : Platform) (h : DEVINST) : Option (String × DEVINST) :=
  match os.CM_Get_Parent h with
  | some p =>
    match os.CM_Get_Device_ID p with
    | some id => some (id, p)
    | none => none
  | none => none

/-- The proper ancestors of a handle: `ancestor os 0 h` is the parent of `h`,
`ancestor os 1 h` its grandparent, and so on. -/
def ancestor (os : Platform) : Nat → DEVINST → Option DEVINST
  | 0, h => os.CM_Get_Parent h
  | k + 1, h =>
    match os.CM_Get_Parent h with
    | some p => ancestor os k p
    | none => none

/-- The parent relation has no cycle. -/
def Acyclic (os : Platform) : Prop := ∀ h k, ancestor os k h ≠ some h

/-- The device tree is finite: only handles below `bound` have a parent. -/
def FiniteTree (os : Platform) (bound : Nat) : Prop :=
  ∀ h, bound ≤ h → os.CM_Get_Parent h = none

/-- The enumerated entry is selected by the comparison of line 235. -/
def Selected (os : Platform) (target : String) (d : DeviceEntry) : Prop :=
  lstrcmpi os target d.DeviceInstanceId = 0

instance (os : Platform) (target : String) (d : DeviceEntry) :
    Decidable (Selected os target d) := by
  unfold Selected; infer_instance

/-- Two strings differ only in letter case: they have the same length and
at every position the two characters have the same case mapping. -/
def SameUpToCase (os : Platform) (a b : String) : Prop :=
  List.Forall₂ (fun x y => os.CharLower x = os.CharLower y) a.data b.data

/-- The platform `os` with the device information set replaced by `devs`. -/
def Platform.withDevices (os : Platform) (devs : List DeviceEntry) : Platform :=
  ⟨fun _ => some devs, os.CM_Get_Parent, os.CM_Get_Device_ID, os.CharLower, os.wregex⟩

/-- The platform `os` in which the handle `root` is a root: it has no parent. -/
def Platform.withRoot (os : Platform) (root : DEVINST) : Platform :=
  ⟨os.SetupDiGetClassDevs, fun h => if h = root then none else os.CM_Get_Parent h,
    os.CM_Get_Device_ID, os.CharLower, os.wregex⟩

/-! ## Basic facts about the translated functions -/

theorem GetParentDeviceInstanceId_fst (os : Platform) (h : DEVINST) (s : Process) :
    (GetParentDeviceInstanceId os h s).1 = readableParent os h := by
  unfold GetParentDeviceInstanceId readableParent
  cases hp : os.CM_Get_Parent h with
  | none => rfl
  | some p =>
    simp only
    cases hi : os.CM_Get_Device_ID p <;> rfl

theorem GetParentDeviceInstanceId_stdout (os : Platform) (h : DEVINST) (s : Process) :
    (GetParentDeviceInstanceId os h s).2.stdout = s.stdout := by
  unfold GetParentDeviceInstanceId
  cases hp : os.CM_Get_Parent h with
  | none => rfl
  | some p =>
    simp only
    cases hi : os.CM_Get_Device_ID p <;> rfl

/-- One iteration of the parent walk, spelled out. -/
theorem parentWalk_succ (os : Platform) (pat : String) (fuel : Nat) (h : DEVINST)
    (s : Process) :
    parentWalk os pat (fuel + 1) h s =
      match readableParent os h with
      | none => some (.cont () (GetParentDeviceInstanceId os h s).2)
      | some (id, p) =>
        match os.wregex pat with
        | none => some (.throw ((GetParentDeviceInstanceId os h s).2.call (.wregex pat)))
        | some m =>
          if m id = true then
            some (.exit 0 (wprintf (id ++ "\n")
              ((GetParentDeviceInstanceId os h s).2.call (.wregex pat))))
          else parentWalk os pat fuel p ((GetParentDeviceInstanceId os h s).2.call (.wregex pat)) := by
  rw [parentWalk]
  have h1 := GetParentDeviceInstanceId_fst os h s
  generalize GetParentDeviceInstanceId os h s = g at h1
  obtain ⟨r, s1⟩ := g
  simp only at h1
  subst h1
  cases readableParent os h with
  | none => rfl
  | some q =>
    obtain ⟨id, p⟩ := q
    simp only [DeviceIdMatchesPattern]
    cases os.wregex pat with
    | none => rfl
    | some m =>
      simp only
      cases hm : m id <;> simp

theorem compareFolded_eq_zero (f : Char → Char) :
    ∀ a b : List Char, compareFolded f a b = 0 ↔ List.Forall₂ (fun x y => f x = f y) a b
  | [], [] => by simp [compareFolded]
  | [], _ :: _ => by simp [compareFolded]
  | _ :: _, [] => by simp [compareFolded]
  | a :: as, b :: bs => by
    rw [compareFolded, List.forall₂_cons]
    by_cases hab : f a = f b
    · simp [hab, compareFolded_eq_zero f as bs]
    · simp only [hab, if_false, false_and, iff_false]
      split <;> decide

/-- The comparison of line 235 succeeds exactly on the strings that differ
from the target only in letter case. -/
theorem lstrcmpi_eq_zero (os : Platform) (a b : String) :
    lstrcmpi os a b = 0 ↔ SameUpToCase os a b :=
  compareFolded_eq_zero os.CharLower a.data b.data

theorem SameUpToCase.symm {os : Platform} {a b : String} (h : SameUpToCase os a b) :
    SameUpToCase os b a := by
  unfold SameUpToCase at *
  generalize a.data = x at h
  generalize b.data = y at h
  induction h with
  | nil => exact List.Forall₂.nil
  | cons hxy _ ih => exact List.Forall₂.cons hxy.symm ih

theorem SameUpToCase.trans {os : Platform} {a b c : String} (h1 : SameUpToCase os a b)
    (h2 : SameUpToCase os b c) : SameUpToCase os a c := by
  unfold SameUpToCase at *
  generalize a.data = x at h1
  generalize b.data = y at h1 h2
  generalize c.data = z at h2
  induction h1 generalizing z with
  | nil => cases h2; exact List.Forall₂.nil
  | cons hxy _ ih =>
    cases h2 with
    | cons hyz h2 => exact List.Forall₂.cons (hxy.trans hyz) (ih _ h2)

/-- More fuel does not change the result of a walk that has finished. -/
theorem parentWalk_succ_fuel (os : Platform) (pat : String) :
    ∀ (fuel : Nat) (h : DEVINST) (s : Process) (r : Step Unit),
      parentWalk os pat fuel h s = some r → parentWalk os pat (fuel + 1) h s = some r
  | 0, _, _, _ => by simp [parentWalk]
  | fuel + 1, h, s, r => by
    intro hw
    rw [parentWalk_succ] at hw ⊢
    revert hw
    cases readableParent os h with
    | none => exact id
    | some q =>
      obtain ⟨id, p⟩ := q
      dsimp only
      cases os.wregex pat with
      | none => exact fun x => x
      | some m =>
        dsimp only
        split
        · exact fun x => x
        · exact parentWalk_succ_fuel os pat fuel p _ r

theorem parentWalk_mono (os : Platform) (pat : String) {fuel fuel2 : Nat} (hle : fuel ≤ fuel2)
    (h : DEVINST) (s : Process) (r : Step Unit)
    (hw : parentWalk os pat fuel h s = some r) : parentWalk os pat fuel2 h s = some r := by
  induction hle with
  | refl => exact hw
  | step _ ih => exact parentWalk_succ_fuel os pat _ h s r ih

/-- The walk leaves the output and the outcome unchanged when the platform is
replaced by one with the same readable parents and the same compiled
pattern, and the trace of calls is disregarded. -/
theorem parentWalk_visible_congr (os os2 : Platform) (pat : String)
    (hp : ∀ h, readableParent os h = readableParent os2 h)
    (hr : os.wregex pat = os2.wregex pat) :
    ∀ (fuel : Nat) (h : DEVINST) (s s2 : Process), s.stdout = s2.stdout →
      (parentWalk os pat fuel h s).map Step.visible
        = (parentWalk os2 pat fuel h s2).map Step.visible
  | 0, _, _, _, _ => by simp [parentWalk]
  | fuel + 1, h, s, s2, hs => by
    rw [parentWalk_succ, parentWalk_succ, ← hp h, ← hr]
    have e1 := GetParentDeviceInstanceId_stdout os h s
    have e2 := GetParentDeviceInstanceId_stdout os2 h s2
    cases readableParent os h with
    | none => simp [Step.visible, e1, e2, hs]
    | some q =>
      obtain ⟨id, p⟩ := q
      dsimp only
      cases os.wregex pat with
      | none => simp [Step.visible, Process.call, e1, e2, hs]
      | some m =>
        dsimp only
        split
        · simp [Step.visible, Process.call, wprintf, e1, e2, hs]
        · exact parentWalk_visible_congr os os2 pat hp hr fuel p _ _
            (by simp [Process.call, e1, e2, hs])

/-- What is visible of two mapped results being equal, case by case. -/
theorem visible_eq_cases {α : Type} {x y : Option (Step α)}
    (h : x.map Step.visible = y.map Step.visible) :
    (x = none ∧ y = none)
    ∨ (∃ a s s2, x = some (.cont a s) ∧ y = some (.cont a s2) ∧ s.stdout = s2.stdout)
    ∨ (∃ n s s2, x = some (.exit n s) ∧ y = some (.exit n s2) ∧ s.stdout = s2.stdout)
    ∨ (∃ s s2, x = some (.throw s) ∧ y = some (.throw s2) ∧ s.stdout = s2.stdout) := by
  cases x with
  | none => cases y <;> simp_all
  | some a =>
    cases y with
    | none => simp at h
    | some b =>
      cases a with
      | cont a s =>
        cases b with
        | cont b s2 =>
          simp only [Option.map_some', Step.visible, Option.some.injEq, Step.cont.injEq,
            Process.mk.injEq, and_true] at h
          obtain ⟨rfl, hs⟩ := h
          exact Or.inr (Or.inl ⟨a, s, s2, rfl, rfl, hs⟩)
        | exit n s2 => simp [Step.visible] at h
        | throw s2 => simp [Step.visible] at h
      | exit n s =>
        cases b with
        | cont b s2 => simp [Step.visible] at h
        | exit n2 s2 =>
          simp only [Option.map_some', Step.visible, Option.some.injEq, Step.exit.injEq,
            Process.mk.injEq, and_true] at h
          obtain ⟨rfl, hs⟩ := h
          exact Or.inr (Or.inr (Or.inl ⟨n, s, s2, rfl, rfl, hs⟩))
        | throw s2 => simp [Step.visible] at h
      | throw s =>
        cases b with
        | cont b s2 => simp [Step.visible] at h
        | exit n2 s2 => simp [Step.visible] at h
        | throw s2 =>
          simp only [Option.map_some', Step.visible, Option.some.injEq, Step.throw.injEq,
            Process.mk.injEq, and_true] at h
          exact Or.inr (Or.inr (Or.inr ⟨s, s2, rfl, rfl, h⟩))

theorem deviceLoop_visible_congr (os os2 : Platform) (t t2 pat : String) (fuel : Nat)
    (hp : ∀ h, readableParent os h = readableParent os2 h)
    (hr : os.wregex pat = os2.wregex pat) :
    ∀ (devs : List DeviceEntry) (idx : Nat) (s s2 : Process),
      (∀ d ∈ devs, Selected os t d ↔ Selected os2 t2 d) → s.stdout = s2.stdout →
      (deviceLoop os t pat fuel devs idx s).map Step.visible
        = (deviceLoop os2 t2 pat fuel devs idx s2).map Step.visible
  | [], idx, s, s2, _, hs => by simp [deviceLoop, Step.visible, hs]
  | d :: rest, idx, s, s2, hsel, hs => by
    have hd := hsel d (List.mem_cons_self _ _)
    have hrest : ∀ e ∈ rest, Selected os t e ↔ Selected os2 t2 e :=
      fun e he => hsel e (List.mem_cons_of_mem _ he)
    unfold Selected at hd
    rw [deviceLoop, deviceLoop]
    by_cases h1 : lstrcmpi os t d.DeviceInstanceId = 0
    · have h2 := hd.mp h1
      rw [if_pos h1, if_pos h2]
      rcases visible_eq_cases (parentWalk_visible_congr os os2 pat hp hr fuel d.DevInst s s2 hs)
        with ⟨e1, e2⟩ | ⟨a, u, u2, e1, e2, hu⟩ | ⟨n, u, u2, e1, e2, hu⟩ | ⟨u, u2, e1, e2, hu⟩
      · rw [e1, e2]
      · rw [e1, e2]
        exact deviceLoop_visible_congr os os2 t t2 pat fuel hp hr rest _ u u2 hrest hu
      · rw [e1, e2]; simp [Step.visible, hu]
      · rw [e1, e2]; simp [Step.visible, hu]
    · have h2 : ¬ lstrcmpi os2 t2 d.DeviceInstanceId = 0 := fun h => h1 (hd.mpr h)
      rw [if_neg h1, if_neg h2]
      exact deviceLoop_visible_congr os os2 t t2 pat fuel hp hr rest _ s s2 hrest hs

/-- The body of `main` when two positional arguments are given. -/
theorem main_two_args (os : Platform) (fuel : Nat) (prog t pat : String) :
    main os fuel ⟨prog, [t, pat]⟩ =
      match os.SetupDiGetClassDevs t with
      | some devInfo =>
        match deviceLoop os t pat fuel devInfo 0
            (Process.start.call (.SetupDiGetClassDevs t)) with
        | none => none
        | some (.cont devIndex s2) =>
          if devIndex = 0 then some (s2.finish (.status ERR_NO_DEVICES_FOUND))
          else some (s2.finish (.status 0))
        | some (.exit n s2) => some (s2.finish (.status n))
        | some (.throw s2) => some (s2.finish .regex_error)
      | none =>
        some ((Process.start.call (.SetupDiGetClassDevs t)).finish (.status ERR_NO_DEVICE_INFO)) := by
  rfl

theorem readableParent_eq_some (os : Platform) (h p : DEVINST) (id : String) :
    readableParent os h = some (id, p) ↔
      os.CM_Get_Parent h = some p ∧ os.CM_Get_Device_ID p = some id := by
  unfold readableParent
  cases hp : os.CM_Get_Parent h with
  | none => simp
  | some q =>
    simp only
    cases hi : os.CM_Get_Device_ID q with
    | none =>
      simp only [Option.some.injEq]
      constructor
      · intro hc; cases hc
      · rintro ⟨rfl, h2⟩; rw [hi] at h2; cases h2
    | some i =>
      simp only [Option.some.injEq, Prod.mk.injEq]
      constructor
      · rintro ⟨rfl, rfl⟩; exact ⟨rfl, hi⟩
      · rintro ⟨rfl, h2⟩; rw [hi] at h2; exact ⟨Option.some.inj h2, rfl⟩

theorem readableParent_eq_none (os : Platform) (h : DEVINST) :
    readableParent os h = none ↔
      os.CM_Get_Parent h = none ∨
        ∃ p, os.CM_Get_Parent h = some p ∧ os.CM_Get_Device_ID p = none := by
  unfold readableParent
  cases hp : os.CM_Get_Parent h with
  | none => simp
  | some q =>
    simp only
    cases hi : os.CM_Get_Device_ID q <;> simp [hi]

theorem ancestor_succ_of_parent (os : Platform) (k : Nat) (h p : DEVINST)
    (hp : os.CM_Get_Parent h = some p) : ancestor os (k + 1) h = ancestor os k p := by
  simp [ancestor, hp]

theorem ancestor_succ_of_root (os : Platform) (k : Nat) (h : DEVINST)
    (hp : os.CM_Get_Parent h = none) : ancestor os k h = none := by
  cases k <;> simp [ancestor, hp]

/-- A walk that starts below a matching ancestor, with readable and
non-matching ancestors in between, prints that ancestor and exits. -/
theorem parentWalk_match (os : Platform) (pat : String) (m : String → Bool)
    (hm : os.wregex pat = some m) :
    ∀ (k : Nat) (h : DEVINST) (s : Process) (a : DEVINST) (ida : String),
      ancestor os k h = some a → os.CM_Get_Device_ID a = some ida → m ida = true →
      (∀ j, j < k → ∃ b idb, ancestor os j h = some b ∧ os.CM_Get_Device_ID b = some idb
        ∧ m idb = false) →
      ∃ s2, parentWalk os pat (k + 1) h s = some (.exit 0 s2)
        ∧ s2.stdout = s.stdout ++ (ida ++ "\n")
  | 0, h, s, a, ida, ha, hid, hmatch, _ => by
    have hrp : readableParent os h = some (ida, a) :=
      (readableParent_eq_some os h a ida).mpr ⟨ha, hid⟩
    rw [parentWalk_succ, hrp]
    simp only [hm, hmatch, if_true]
    exact ⟨_, rfl, by simp [wprintf, Process.call, GetParentDeviceInstanceId_stdout]⟩
  | k + 1, h, s, a, ida, ha, hid, hmatch, hnear => by
    obtain ⟨b, idb, hb, hidb, hmb⟩ := hnear 0 (Nat.succ_pos k)
    have hb2 : os.CM_Get_Parent h = some b := hb
    have hrp : readableParent os h = some (idb, b) :=
      (readableParent_eq_some os h b idb).mpr ⟨hb2, hidb⟩
    rw [parentWalk_succ, hrp]
    simp only [hm, hmb, Bool.false_eq_true, if_false]
    rw [ancestor_succ_of_parent os k h b hb2] at ha
    have hnear2 : ∀ j, j < k → ∃ c idc, ancestor os j b = some c
        ∧ os.CM_Get_Device_ID c = some idc ∧ m idc = false := by
      intro j hj
      have := hnear (j + 1) (Nat.succ_lt_succ hj)
      rwa [ancestor_succ_of_parent os j h b hb2] at this
    obtain ⟨s2, hw, hs2⟩ := parentWalk_match os pat m hm k b
      ((GetParentDeviceInstanceId os h s).2.call (.wregex pat)) a ida ha hid hmatch hnear2
    exact ⟨s2, hw, by rw [hs2]; simp [Process.call, GetParentDeviceInstanceId_stdout]⟩

/-- A walk over a chain that ends, none of whose readable ancestors match,
leaves the loop by `break` without output. -/
theorem parentWalk_no_match (os : Platform) (pat : String) (m : String → Bool)
    (hm : os.wregex pat = some m) :
    ∀ (n : Nat) (h : DEVINST) (s : Process),
      ancestor os n h = none →
      (∀ j b idb, ancestor os j h = some b → os.CM_Get_Device_ID b = some idb → m idb = false) →
      ∃ s2, parentWalk os pat (n + 1) h s = some (.cont () s2) ∧ s2.stdout = s.stdout
  | n, h, s, hn, hno => by
    rw [parentWalk_succ]
    cases hrp : readableParent os h with
    | none => exact ⟨_, rfl, GetParentDeviceInstanceId_stdout os h s⟩
    | some q =>
      obtain ⟨id, p⟩ := q
      obtain ⟨hp, hid⟩ := (readableParent_eq_some os h p id).mp hrp
      have hmid : m id = false := hno 0 p id hp hid
      simp only [hm, hmid, Bool.false_eq_true, if_false]
      cases n with
      | zero => rw [ancestor, hp] at hn; exact absurd hn (by simp)
      | succ n =>
        rw [ancestor_succ_of_parent os n h p hp] at hn
        have hno2 : ∀ j b idb, ancestor os j p = some b → os.CM_Get_Device_ID b = some idb →
            m idb = false := by
          intro j b idb hb
          exact hno (j + 1) b idb (by rw [ancestor_succ_of_parent os j h p hp]; exact hb)
        obtain ⟨s2, hw, hs2⟩ := parentWalk_no_match os pat m hm n p
          ((GetParentDeviceInstanceId os h s).2.call (.wregex pat)) hn hno2
        exact ⟨s2, hw, by rw [hs2]; simp [Process.call, GetParentDeviceInstanceId_stdout]⟩

/-- The output and exit status of `main` depend on the platform only through
the device set, the selection of entries, the readable parents and the
compiled pattern. -/
theorem main_observable_congr (os os2 : Platform) (fuel : Nat) (prog t t2 pat : String)
    (henum : os.SetupDiGetClassDevs t = os2.SetupDiGetClassDevs t2)
    (hp : ∀ h, readableParent os h = readableParent os2 h)
    (hr : os.wregex pat = os2.wregex pat)
    (hsel : ∀ d, Selected os t d ↔ Selected os2 t2 d) :
    (main os fuel ⟨prog, [t, pat]⟩).map Result.observable
      = (main os2 fuel ⟨prog, [t2, pat]⟩).map Result.observable := by
  rw [main_two_args, main_two_args, henum]
  cases os2.SetupDiGetClassDevs t2 with
  | none => rfl
  | some devs =>
    dsimp only
    have hloop := deviceLoop_visible_congr os os2 t t2 pat fuel hp hr devs 0
      (Process.start.call (.SetupDiGetClassDevs t))
      (Process.start.call (.SetupDiGetClassDevs t2)) (fun d _ => hsel d) rfl
    rcases visible_eq_cases hloop
      with ⟨e1, e2⟩ | ⟨a, u, u2, e1, e2, hu⟩ | ⟨n, u, u2, e1, e2, hu⟩ | ⟨u, u2, e1, e2, hu⟩
    · rw [e1, e2]
    · rw [e1, e2]
      dsimp only
      split <;> simp [Result.observable, Process.finish, hu]
    · rw [e1, e2]; simp [Result.observable, Process.finish, hu]
    · rw [e1, e2]; simp [Result.observable, Process.finish, hu]

/-- With a wrong number of arguments the platform is not consulted. -/
theorem main_bad_args (os : Platform) (fuel : Nat) (cmd : CommandLine) (h : cmd.argc ≠ 3) :
    main os fuel cmd
      = some ⟨usage (GetExecutableName (cmd.argv 0)), [], .status ERR_BAD_ARGUMENTS⟩ := by
  unfold main
  rw [if_pos h]
  simp only [ShowHelp, wprintf, Process.finish, Process.start, String.empty_append]

theorem argc_eq_three (cmd : CommandLine) (h : cmd.argc = 3) :
    cmd = ⟨cmd.program, [cmd.argv 1, cmd.argv 2]⟩ := by
  obtain ⟨prog, args⟩ := cmd
  match args, h with
  | [a, b], _ => rfl
  | [], h => simp [CommandLine.argc] at h
  | [_], h => simp [CommandLine.argc] at h
  | _ :: _ :: _ :: _, h => simp [CommandLine.argc] at h

/-- Entries that are not selected are passed over. -/
theorem deviceLoop_skip (os : Platform) (t pat : String) (fuel : Nat) :
    ∀ (pre rest : List DeviceEntry) (idx : Nat) (s : Process),
      (∀ d ∈ pre, ¬ Selected os t d) →
      deviceLoop os t pat fuel (pre ++ rest) idx s
        = deviceLoop os t pat fuel rest (idx + pre.length) s
  | [], rest, idx, s, _ => by simp
  | d :: pre, rest, idx, s, hpre => by
    have hd : ¬ lstrcmpi os t d.DeviceInstanceId = 0 := hpre d (List.mem_cons_self _ _)
    rw [List.cons_append, deviceLoop, if_neg hd,
      deviceLoop_skip os t pat fuel pre rest (idx + 1) s
        (fun e he => hpre e (List.mem_cons_of_mem _ he))]
    simp only [List.length_cons]
    congr 1
    omega

/-- When the walk of every selected entry ends by `break`, the loop runs to
the end of the enumeration and nothing is printed. -/
theorem deviceLoop_all_break (os : Platform) (t pat : String) (fuel : Nat) :
    ∀ (devs : List DeviceEntry) (idx : Nat) (s : Process),
      (∀ d ∈ devs, Selected os t d →
        ∀ u, ∃ u2, parentWalk os pat fuel d.DevInst u = some (.cont () u2)
          ∧ u2.stdout = u.stdout) →
      ∃ s2, deviceLoop os t pat fuel devs idx s = some (.cont (idx + devs.length) s2)
        ∧ s2.stdout = s.stdout
  | [], idx, s, _ => ⟨s, by simp [deviceLoop], rfl⟩
  | d :: rest, idx, s, hall => by
    have hrest : ∀ e ∈ rest, Selected os t e →
        ∀ u, ∃ u2, parentWalk os pat fuel e.DevInst u = some (.cont () u2)
          ∧ u2.stdout = u.stdout :=
      fun e he => hall e (List.mem_cons_of_mem _ he)
    rw [deviceLoop]
    by_cases hd : lstrcmpi os t d.DeviceInstanceId = 0
    · rw [if_pos hd]
      obtain ⟨u2, hw, hu2⟩ := hall d (List.mem_cons_self _ _) hd s
      rw [hw]
      obtain ⟨s2, hl, hs2⟩ := deviceLoop_all_break os t pat fuel rest (idx + 1) u2 hrest
      refine ⟨s2, ?_, by rw [hs2, hu2]⟩
      simp only [hl, List.length_cons]
      congr 2
      omega
    · rw [if_neg hd]
      obtain ⟨s2, hl, hs2⟩ := deviceLoop_all_break os t pat fuel rest (idx + 1) s hrest
      refine ⟨s2, ?_, hs2⟩
      simp only [hl, List.length_cons]
      congr 2
      omega

theorem ancestor_prefix (os : Platform) :
    ∀ (j k : Nat) (h a : DEVINST), ancestor os k h = some a → j < k →
      ∃ b, ancestor os j h = some b
  | j, 0, _, _, _, hj => absurd hj (Nat.not_lt_zero j)
  | 0, k + 1, h, a, ha, _ => by
    cases hp : os.CM_Get_Parent h with
    | none => rw [ancestor_succ_of_root os _ h hp] at ha; cases ha
    | some p => exact ⟨p, hp⟩
  | j + 1, k + 1, h, a, ha, hj => by
    cases hp : os.CM_Get_Parent h with
    | none => rw [ancestor_succ_of_root os _ h hp] at ha; cases ha
    | some p =>
      rw [ancestor_succ_of_parent os k h p hp] at ha
      rw [ancestor_succ_of_parent os j h p hp]
      exact ancestor_prefix os j k p a ha (Nat.lt_of_succ_lt_succ hj)

/-- Climbing `i + 1` levels and then `j + 1` levels is climbing `i + j + 2`
levels. -/
theorem ancestor_add (os : Platform) (j : Nat) :
    ∀ (i : Nat) (h : DEVINST),
      ancestor os (i + j + 1) h = (ancestor os i h).bind (ancestor os j)
  | 0, h => by
    rw [Nat.zero_add]
    cases hp : os.CM_Get_Parent h with
    | none => simp [ancestor, hp]
    | some p => simp [ancestor, hp]
  | i + 1, h => by
    have e : i + 1 + j + 1 = (i + j + 1) + 1 := by omega
    rw [e]
    cases hp : os.CM_Get_Parent h with
    | none => simp [ancestor, hp]
    | some p =>
      rw [ancestor_succ_of_parent os _ h p hp, ancestor_succ_of_parent os _ h p hp]
      exact ancestor_add os j i p

/-- The run of `main` when the walk of the first selected entry leaves the
program by `exit`. -/
theorem main_exit_at (os : Platform) (fuel : Nat) (prog t pat : String)
    (pre post : List DeviceEntry) (e : DeviceEntry)
    (hdevs : os.SetupDiGetClassDevs t = some (pre ++ e :: post))
    (hpre : ∀ d ∈ pre, ¬ Selected os t d) (he : Selected os t e) (n : Nat) (s2 : Process)
    (hw : parentWalk os pat fuel e.DevInst (Process.start.call (.SetupDiGetClassDevs t))
      = some (.exit n s2)) :
    main os fuel ⟨prog, [t, pat]⟩ = some (s2.finish (.status n)) := by
  have he2 : lstrcmpi os t e.DeviceInstanceId = 0 := he
  rw [main_two_args, hdevs]
  simp only [deviceLoop_skip os t pat fuel pre (e :: post) 0 _ hpre, deviceLoop, if_pos he2, hw]

theorem filter_singleton_split {α : Type} (p : α → Bool) (l : List α) (e : α)
    (h : l.filter p = [e]) :
    ∃ pre post, l = pre ++ e :: post ∧ (∀ x ∈ pre, ¬ p x = true) ∧ p e = true
      ∧ ∀ x ∈ post, ¬ p x = true := by
  obtain ⟨pre, post, hl, hpre, he, hpost⟩ := List.filter_eq_cons_iff.mp h
  exact ⟨pre, post, hl, hpre, he, List.filter_eq_nil_iff.mp hpost⟩

/-! ## The claims -/

/-- C1: when exactly one enumerated entry equals the target (up to letter
case), the identifiers of its ancestors can be read and some proper ancestor
has an identifier that the pattern matches as a whole string, `main` prints the
identifier of the nearest such ancestor followed by a newline and nothing
else, and exits with status 0; nearer ancestors, which the pattern does not
match as a whole, are skipped, and the printed handle is a proper ancestor,
never the searched device itself. -/
theorem nearest_matching_ancestor_is_printed (os : Platform) (m : String → Bool)
    (prog t pat : String) (devs : List DeviceEntry) (e : DeviceEntry)
    (hacyclic : Acyclic os)
    (hpat : os.wregex pat = some m)
    (hdevs : os.SetupDiGetClassDevs t = some devs)
    (hone : devs.filter (fun d => decide (Selected os t d)) = [e])
    (hread : ∀ j b, ancestor os j e.DevInst = some b → ∃ id, os.CM_Get_Device_ID b = some id)
    (hsome : ∃ k a id, ancestor os k e.DevInst = some a ∧ os.CM_Get_Device_ID a = some id
      ∧ m id = true) :
    ∃ k a id, ancestor os k e.DevInst = some a ∧ os.CM_Get_Device_ID a = some id
      ∧ m id = true
      ∧ (∀ j b idb, j < k → ancestor os j e.DevInst = some b →
          os.CM_Get_Device_ID b = some idb → m idb = false)
      ∧ a ≠ e.DevInst
      ∧ ∀ fuel, k < fuel →
          (main os fuel ⟨prog, [t, pat]⟩).map Result.observable
            = some (id ++ "\n", Exit.status 0) := by
  classical
  have hex : ∃ k, ∃ a id, ancestor os k e.DevInst = some a ∧ os.CM_Get_Device_ID a = some id
      ∧ m id = true := hsome
  obtain ⟨a, id, ha, hid, hmatch⟩ := Nat.find_spec hex
  have hmin : ∀ j b idb, j < Nat.find hex → ancestor os j e.DevInst = some b →
      os.CM_Get_Device_ID b = some idb → m idb = false := by
    intro j b idb hj hb hidb
    cases hmb : m idb with
    | false => rfl
    | true => exact absurd ⟨b, idb, hb, hidb, hmb⟩ (Nat.find_min hex hj)
  refine ⟨Nat.find hex, a, id, ha, hid, hmatch, hmin, ?_, ?_⟩
  · intro hae
    rw [hae] at ha
    exact hacyclic _ _ ha
  · intro fuel hfuel
    obtain ⟨pre, post, hsplit, hpre, he, _⟩ := filter_singleton_split _ devs e hone
    have hnear : ∀ j, j < Nat.find hex → ∃ b idb, ancestor os j e.DevInst = some b
        ∧ os.CM_Get_Device_ID b = some idb ∧ m idb = false := by
      intro j hj
      obtain ⟨b, hb⟩ := ancestor_prefix os j _ _ _ ha hj
      obtain ⟨idb, hidb⟩ := hread j b hb
      exact ⟨b, idb, hb, hidb, hmin j b idb hj hb hidb⟩
    obtain ⟨s2, hw, hs2⟩ := parentWalk_match os pat m hpat (Nat.find hex) e.DevInst
      (Process.start.call (.SetupDiGetClassDevs t)) a id ha hid hmatch hnear
    have hw2 := parentWalk_mono os pat (Nat.succ_le_of_lt hfuel) _ _ _ hw
    rw [main_exit_at os fuel prog t pat pre post e (hsplit ▸ hdevs)
      (fun d hd => by simpa using hpre d hd) (by simpa using he) 0 s2 hw2]
    simp [Result.observable, Process.finish, hs2, Process.call, Process.start]

/-- C2, as amended: when the device set is obtained and none of its entries
equals the target, `main` prints nothing; the status is the no-devices status
2 when the enumeration is empty and 0 when it is not. -/
theorem absent_device_exit_status (os : Platform) (fuel : Nat) (prog t pat : String)
    (devs : List DeviceEntry)
    (hdevs : os.SetupDiGetClassDevs t = some devs)
    (habsent : ∀ d ∈ devs, ¬ Selected os t d) :
    main os fuel ⟨prog, [t, pat]⟩
      = some ⟨"", [.SetupDiGetClassDevs t],
          .status (if devs = [] then ERR_NO_DEVICES_FOUND else 0)⟩ := by
  rw [main_two_args, hdevs]
  have hskip := deviceLoop_skip os t pat fuel devs [] 0
    (Process.start.call (.SetupDiGetClassDevs t)) habsent
  rw [List.append_nil] at hskip
  simp only [hskip, deviceLoop, Nat.zero_add]
  cases devs with
  | nil => rfl
  | cons d rest => rfl

/-- C3: with an argument count other than 3 the usage text, spelled out
below with the executable name in three places, is printed, the status is 1
and no API call is made; otherwise, when the device set cannot be obtained,
nothing is printed and the status is 3; otherwise, when the enumeration is
empty, nothing is printed and the status is 2.  The three statuses are
pairwise distinct and none of them is 0. -/
theorem failure_exit_statuses (os : Platform) (fuel : Nat) (cmd : CommandLine) :
    (cmd.argc ≠ 3 →
      main os fuel cmd
        = some ⟨"Usage:\n\n"
            ++ "\t" ++ GetExecutableName (cmd.argv 0) ++ " DII PATTERN\n\n"
            ++ "Arguments:\n\n"
            ++ "\tDII     - Device Instance ID of the Device whose parent is to be found\n"
            ++ "\tPATTERN - Regular expression to match Parent's Device Instance ID\n"
            ++ "\n"
            ++ "Examples:\n\n"
            ++ "Example 1. Get immediate parent:\n\n"
            ++ "\t" ++ GetExecutableName (cmd.argv 0) ++ " \""
            ++ "USBSTOR\\DISK&VEN_GENERIC&PROD_STORAGE_DEVICE&REV_0207\\000000000207&0"
            ++ "\" \"" ++ ".*" ++ "\"\n\n"
            ++ "In this case the \".*\" will cause first found parent to be returned.\n"
            ++ "\n"
            ++ "Example 2. Get usb hub the device is connected to:\n\n"
            ++ "\t" ++ GetExecutableName (cmd.argv 0) ++ " \""
            ++ "USBSTOR\\DISK&VEN_GENERIC&PROD_STORAGE_DEVICE&REV_0207\\000000000207&0"
            ++ "\" \"" ++ ".*\\\\ROOT_HUB.*" ++ "\"\n\n"
            ++ "The program will search \"up\" the device tree until it finds a parent with a matching Device Instance ID.\n"
            ++ "\n",
          [], .status ERR_BAD_ARGUMENTS⟩
        ∧ (GetExecutableName (cmd.argv 0)).data <:+ cmd.program.data)
    ∧ (cmd.argc = 3 → os.SetupDiGetClassDevs (cmd.argv 1) = none →
      main os fuel cmd
        = some ⟨"", [.SetupDiGetClassDevs (cmd.argv 1)], .status ERR_NO_DEVICE_INFO⟩)
    ∧ (cmd.argc = 3 → os.SetupDiGetClassDevs (cmd.argv 1) = some [] →
      main os fuel cmd
        = some ⟨"", [.SetupDiGetClassDevs (cmd.argv 1)], .status ERR_NO_DEVICES_FOUND⟩)
    ∧ ERR_BAD_ARGUMENTS = 1 ∧ ERR_NO_DEVICES_FOUND = 2 ∧ ERR_NO_DEVICE_INFO = 3
    ∧ ERR_BAD_ARGUMENTS ≠ ERR_NO_DEVICES_FOUND ∧ ERR_BAD_ARGUMENTS ≠ ERR_NO_DEVICE_INFO
    ∧ ERR_NO_DEVICES_FOUND ≠ ERR_NO_DEVICE_INFO
    ∧ ERR_BAD_ARGUMENTS ≠ 0 ∧ ERR_NO_DEVICES_FOUND ≠ 0 ∧ ERR_NO_DEVICE_INFO ≠ 0 := by
  refine ⟨fun hargc => ⟨main_bad_args os fuel cmd hargc, List.drop_suffix _ _⟩, ?_, ?_,
    rfl, rfl, rfl, by decide, by decide, by decide, by decide, by decide, by decide⟩
  · intro hargc hnone
    rw [argc_eq_three cmd hargc, main_two_args]
    simp only [CommandLine.argv, List.getD_cons_succ, List.getD_cons_zero] at hnone ⊢
    rw [hnone]
    rfl
  · intro hargc hempty
    rw [argc_eq_three cmd hargc, main_two_args]
    simp only [CommandLine.argv, List.getD_cons_succ, List.getD_cons_zero] at hempty ⊢
    rw [hempty]
    rfl

/-- C5: when the first selected entry has a parent whose identifier can be
read and the pattern matches every string, `main` prints the identifier of that
immediate parent and exits with status 0 after exactly one parent lookup. -/
theorem match_anything_prints_immediate_parent (os : Platform) (fuel : Nat)
    (prog t pat : String) (pre post : List DeviceEntry) (e : DeviceEntry) (p : DEVINST)
    (pid : String) (m : String → Bool)
    (hdevs : os.SetupDiGetClassDevs t = some (pre ++ e :: post))
    (hpre : ∀ d ∈ pre, ¬ Selected os t d) (he : Selected os t e)
    (hparent : os.CM_Get_Parent e.DevInst = some p)
    (hid : os.CM_Get_Device_ID p = some pid)
    (hpat : os.wregex pat = some m) (hall : ∀ x, m x = true) (hfuel : 0 < fuel) :
    main os fuel ⟨prog, [t, pat]⟩
      = some ⟨pid ++ "\n",
          [.SetupDiGetClassDevs t, .CM_Get_Parent e.DevInst, .CM_Get_Device_ID p, .wregex pat],
          .status 0⟩ := by
  obtain ⟨f, rfl⟩ : ∃ f, fuel = f + 1 := ⟨fuel - 1, by omega⟩
  rw [main_exit_at os (f + 1) prog t pat pre post e hdevs hpre he 0
    ⟨pid ++ "\n",
      [.SetupDiGetClassDevs t, .CM_Get_Parent e.DevInst, .CM_Get_Device_ID p, .wregex pat]⟩]
  · rfl
  · simp [parentWalk, GetParentDeviceInstanceId, DeviceIdMatchesPattern, hparent, hid, hpat,
      hall, wprintf, Process.call, Process.start]

/-- In a finite tree without cycles every chain of parents ends: no handle
has an ancestor `bound` levels above its parent. -/
theorem ancestor_bound_of_acyclic (os : Platform) (bound : Nat)
    (hfin : FiniteTree os bound) (hacyclic : Acyclic os) (h : DEVINST) :
    ancestor os bound h = none := by
  by_contra hne
  obtain ⟨x, hx⟩ := Option.ne_none_iff_exists'.mp hne
  have hex : ∀ i, i ≤ bound → ∃ y, ancestor os i h = some y := by
    intro i hi
    rcases Nat.lt_or_ge i bound with hlt | hge
    · exact ancestor_prefix os i bound h x hx hlt
    · have : i = bound := Nat.le_antisymm hi hge
      exact ⟨x, this ▸ hx⟩
  have hlt : ∀ a p, os.CM_Get_Parent a = some p → a < bound := by
    intro a p hp
    by_contra hge
    rw [hfin a (Nat.le_of_not_lt hge)] at hp
    cases hp
  have hstep : ∀ i y z, ancestor os i h = some y → ancestor os (i + 1) h = some z →
      os.CM_Get_Parent y = some z := by
    intro i y z hy hz
    have e := ancestor_add os 0 i h
    rw [Nat.add_zero, hy, hz] at e
    exact e.symm
  let v : Nat → Nat := fun i =>
    match i with
    | 0 => h
    | i + 1 => (ancestor os i h).getD 0
  have hv : ∀ i ∈ Finset.range (bound + 1), v i ∈ Finset.range bound := by
    intro i hi
    rw [Finset.mem_range] at hi ⊢
    match i, hi with
    | 0, _ =>
      obtain ⟨y, hy⟩ := hex 0 (Nat.zero_le _)
      exact hlt h y hy
    | i + 1, hi =>
      obtain ⟨y, hy⟩ := hex i (by omega)
      obtain ⟨z, hz⟩ := hex (i + 1) (by omega)
      show (ancestor os i h).getD 0 < bound
      rw [hy]
      exact hlt y z (hstep i y z hy hz)
  have key : ∀ i j, i < j → j ≤ bound → v i = v j → False := by
    intro i j hij hj hvij
    match i, j, hij, hj, hvij with
    | 0, j + 1, _, hj, hvij =>
      obtain ⟨y, hy⟩ := hex j (by omega)
      have : h = (ancestor os j h).getD 0 := hvij
      rw [hy] at this
      simp only [Option.getD_some] at this
      rw [← this] at hy
      exact hacyclic h j hy
    | i + 1, j + 1, hij, hj, hvij =>
      obtain ⟨y, hy⟩ := hex i (by omega)
      obtain ⟨z, hz⟩ := hex j (by omega)
      have : (ancestor os i h).getD 0 = (ancestor os j h).getD 0 := hvij
      rw [hy, hz] at this
      simp only [Option.getD_some] at this
      obtain ⟨d, rfl⟩ : ∃ d, j = i + d + 1 := ⟨j - i - 1, by omega⟩
      rw [ancestor_add os d i h, hy] at hz
      simp only [Option.some_bind] at hz
      rw [← this] at hz
      exact hacyclic y d hz
  obtain ⟨i, hi, j, hj, hij, hvij⟩ :=
    Finset.exists_ne_map_eq_of_card_lt_of_maps_to
      (show (Finset.range bound).card < (Finset.range (bound + 1)).card by simp) hv
  rw [Finset.mem_range] at hi hj
  rcases Nat.lt_or_gt_of_ne hij with hlt2 | hgt2
  · exact key i j hlt2 (by omega) hvij
  · exact key j i hgt2 (by omega) hvij.symm

/-- C4, as amended: in a finite device tree without cycles and for every
pattern that compiles, when the searched device is found and no proper
ancestor of a selected entry has an identifier that the pattern matches,
`main` prints nothing and exits with status 0.  The same holds for every
pattern, compiled or not, when no selected entry has a parent whose
identifier can be read, in particular when the searched device has no
ancestor at all. -/
theorem no_matching_ancestor_is_silent (os : Platform)
    (prog t pat : String) (devs : List DeviceEntry) (bound fuel : Nat)
    (hacyclic : Acyclic os) (hfin : FiniteTree os bound)
    (hdevs : os.SetupDiGetClassDevs t = some devs)
    (hfound : ∃ d ∈ devs, Selected os t d)
    (hno : ∀ d ∈ devs, Selected os t d → ∀ k a id m, ancestor os k d.DevInst = some a →
      os.CM_Get_Device_ID a = some id → os.wregex pat = some m → m id = false)
    (hpat : (∃ m, os.wregex pat = some m)
      ∨ ∀ d ∈ devs, Selected os t d → readableParent os d.DevInst = none)
    (hfuel : bound < fuel) :
    (main os fuel ⟨prog, [t, pat]⟩).map Result.observable = some ("", Exit.status 0) := by
  have hwalk : ∀ d ∈ devs, Selected os t d →
      ∀ u, ∃ u2, parentWalk os pat fuel d.DevInst u = some (.cont () u2)
        ∧ u2.stdout = u.stdout := by
    intro d hd hsel u
    rcases hpat with ⟨m, hm⟩ | hroot
    · obtain ⟨u2, hw, hu2⟩ := parentWalk_no_match os pat m hm bound d.DevInst u
        (ancestor_bound_of_acyclic os bound hfin hacyclic d.DevInst)
        (fun k a id ha hid => hno d hd hsel k a id m ha hid hm)
      exact ⟨u2, parentWalk_mono os pat (Nat.succ_le_of_lt hfuel) _ _ _ hw, hu2⟩
    · have hw : parentWalk os pat 1 d.DevInst u
          = some (.cont () (GetParentDeviceInstanceId os d.DevInst u).2) := by
        rw [parentWalk_succ, hroot d hd hsel]
      exact ⟨_, parentWalk_mono os pat (Nat.succ_le_of_lt (Nat.zero_lt_of_lt hfuel)) _ _ _ hw,
        GetParentDeviceInstanceId_stdout os d.DevInst u⟩
  obtain ⟨s2, hl, hs2⟩ := deviceLoop_all_break os t pat fuel devs 0
    (Process.start.call (.SetupDiGetClassDevs t)) hwalk
  have hne : ¬ (0 + devs.length = 0) := by
    obtain ⟨d, hd, _⟩ := hfound
    have := List.length_pos_of_mem hd
    omega
  rw [main_two_args, hdevs]
  simp only [hl, if_neg hne]
  simp [Result.observable, Process.finish, hs2, Process.call, Process.start]

/-- C6: the lookup does not depend on the letter case of the target: two
targets that differ only in letter case select the same enumerated entries
and, the enumeration being the same, give the same output and exit status; a
target that differs from an enumerated identifier only in letter case selects
that entry. -/
theorem lookup_is_case_insensitive (os : Platform) (fuel : Nat) (prog t1 t2 pat : String)
    (hcase : SameUpToCase os t1 t2)
    (henum : os.SetupDiGetClassDevs t1 = os.SetupDiGetClassDevs t2) :
    (∀ d, Selected os t1 d ↔ Selected os t2 d)
    ∧ (main os fuel ⟨prog, [t1, pat]⟩).map Result.observable
        = (main os fuel ⟨prog, [t2, pat]⟩).map Result.observable
    ∧ (∀ d : DeviceEntry, SameUpToCase os t1 d.DeviceInstanceId → Selected os t1 d) := by
  have hsel : ∀ d, Selected os t1 d ↔ Selected os t2 d := by
    intro d
    unfold Selected
    rw [lstrcmpi_eq_zero, lstrcmpi_eq_zero]
    exact ⟨fun h => hcase.symm.trans h, fun h => hcase.trans h⟩
  exact ⟨hsel, main_observable_congr os os fuel prog t1 t2 pat henum (fun _ => rfl) rfl hsel,
    fun d hd => (lstrcmpi_eq_zero os t1 d.DeviceInstanceId).mpr hd⟩

theorem readableParent_withRoot (os : Platform) (root : DEVINST)
    (hroot : readableParent os root = none) (h : DEVINST) :
    readableParent os h = readableParent (os.withRoot root) h := by
  by_cases hh : h = root
  · subst hh
    rw [hroot]
    simp [readableParent, Platform.withRoot]
  · simp [readableParent, Platform.withRoot, hh]

/-- C10: `GetParentDeviceInstanceId` returns `TRUE` exactly when the lookup of
the parent handle and the lookup of the identifier of that parent both
succeed; and when one of the two fails at a handle, every run has the output
and exit status of the run over the tree in which that handle is a root, the
walk stopping at that handle without compiling or testing the pattern. -/
theorem failed_lookup_is_a_root (os : Platform) :
    (∀ h s, (GetParentDeviceInstanceId os h s).1.isSome = true ↔
      ∃ p id, os.CM_Get_Parent h = some p ∧ os.CM_Get_Device_ID p = some id)
    ∧ ∀ root,
      (os.CM_Get_Parent root = none
        ∨ ∃ p, os.CM_Get_Parent root = some p ∧ os.CM_Get_Device_ID p = none) →
      (∀ fuel cmd, (main os fuel cmd).map Result.observable
          = (main (os.withRoot root) fuel cmd).map Result.observable)
      ∧ (∀ pat fuel s, ∃ s2, parentWalk os pat (fuel + 1) root s = some (.cont () s2)
          ∧ s2.stdout = s.stdout
          ∧ (s2.calls = s.calls ++ [.CM_Get_Parent root]
            ∨ ∃ p, s2.calls = s.calls ++ [.CM_Get_Parent root, .CM_Get_Device_ID p]))
      ∧ (∀ pat fuel s, parentWalk (os.withRoot root) pat (fuel + 1) root s
          = some (.cont () ⟨s.stdout, s.calls ++ [.CM_Get_Parent root]⟩)) := by
  constructor
  · intro h s
    rw [GetParentDeviceInstanceId_fst]
    constructor
    · intro hsome
      obtain ⟨⟨id, p⟩, hq⟩ := Option.isSome_iff_exists.mp hsome
      exact ⟨p, id, (readableParent_eq_some os h p id).mp hq⟩
    · rintro ⟨p, id, hp⟩
      rw [(readableParent_eq_some os h p id).mpr hp]
      rfl
  · intro root hfail
    have hnone : readableParent os root = none := (readableParent_eq_none os root).mpr hfail
    refine ⟨?_, ?_, ?_⟩
    · intro fuel cmd
      by_cases hargc : cmd.argc ≠ 3
      · rw [main_bad_args os fuel cmd hargc, main_bad_args _ fuel cmd hargc]
      · rw [argc_eq_three cmd (not_not.mp hargc)]
        exact main_observable_congr os (os.withRoot root) fuel _ _ _ _ rfl
          (readableParent_withRoot os root hnone) rfl (fun _ => Iff.rfl)
    · intro pat fuel s
      rcases hfail with hp | ⟨p, hp, hid⟩
      · refine ⟨⟨s.stdout, s.calls ++ [.CM_Get_Parent root]⟩, ?_, rfl, Or.inl rfl⟩
        simp [parentWalk, GetParentDeviceInstanceId, hp, Process.call]
      · refine ⟨⟨s.stdout, s.calls ++ [.CM_Get_Parent root, .CM_Get_Device_ID p]⟩, ?_, rfl,
          Or.inr ⟨p, rfl⟩⟩
        simp [parentWalk, GetParentDeviceInstanceId, hp, hid, Process.call]
    · intro pat fuel s
      simp [parentWalk, GetParentDeviceInstanceId, Platform.withRoot, Process.call]

/-- A walk that ends by `break` has printed nothing. -/
theorem parentWalk_break_stdout (os : Platform) (pat : String) :
    ∀ (fuel : Nat) (h : DEVINST) (s s2 : Process) (a : Unit),
      parentWalk os pat fuel h s = some (.cont a s2) → s2.stdout = s.stdout
  | 0, _, _, _, _, hw => by simp [parentWalk] at hw
  | fuel + 1, h, s, s2, a, hw => by
    rw [parentWalk_succ] at hw
    revert hw
    cases readableParent os h with
    | none =>
      intro hw
      simp only [Option.some.injEq, Step.cont.injEq, true_and] at hw
      rw [← hw, GetParentDeviceInstanceId_stdout]
    | some q =>
      obtain ⟨id, p⟩ := q
      dsimp only
      cases os.wregex pat with
      | none => intro hw; simp at hw
      | some m =>
        dsimp only
        split
        · intro hw; simp at hw
        · intro hw
          rw [parentWalk_break_stdout os pat fuel p _ s2 a hw]
          simp [Process.call, GetParentDeviceInstanceId_stdout]

/-- The walk from a state in which nothing has been printed behaves as the
walk from the initial state. -/
theorem parentWalk_from_quiet (os : Platform) (pat : String) (fuel : Nat) (h : DEVINST)
    (s : Process) (hs : s.stdout = "") :
    (parentWalk os pat fuel h s).map Step.visible
      = (parentWalk os pat fuel h Process.start).map Step.visible :=
  parentWalk_visible_congr os os pat (fun _ => rfl) rfl fuel h s Process.start hs

/-- Selected entries whose walk ends by `break` do not end the enumeration. -/
theorem deviceLoop_pass (os : Platform) (t pat : String) (fuel : Nat)
    (rest : List DeviceEntry) :
    ∀ (pre : List DeviceEntry) (idx : Nat) (s : Process), s.stdout = "" →
      (∀ d ∈ pre, Selected os t d →
        ∃ s2, parentWalk os pat fuel d.DevInst Process.start = some (.cont () s2)) →
      ∃ s1, s1.stdout = "" ∧
        deviceLoop os t pat fuel (pre ++ rest) idx s
          = deviceLoop os t pat fuel rest (idx + pre.length) s1
  | [], idx, s, hs, _ => ⟨s, hs, by simp⟩
  | d :: pre, idx, s, hs, hpre => by
    have hpre2 : ∀ e ∈ pre, Selected os t e →
        ∃ s2, parentWalk os pat fuel e.DevInst Process.start = some (.cont () s2) :=
      fun e he => hpre e (List.mem_cons_of_mem _ he)
    have hidx : idx + 1 + pre.length = idx + (d :: pre).length := by
      simp only [List.length_cons]; omega
    rw [List.cons_append, deviceLoop]
    by_cases hd : lstrcmpi os t d.DeviceInstanceId = 0
    · rw [if_pos hd]
      obtain ⟨s2, hw⟩ := hpre d (List.mem_cons_self _ _) hd
      have hq := parentWalk_from_quiet os pat fuel d.DevInst s hs
      rw [hw] at hq
      rcases visible_eq_cases hq
        with ⟨_, e2⟩ | ⟨a, u, u2, e1, e2, hu⟩ | ⟨n, u, u2, _, e2, _⟩ | ⟨u, u2, _, e2, _⟩
      · cases e2
      · have hu0 : u.stdout = "" := by
          rw [parentWalk_break_stdout os pat fuel d.DevInst s u a e1, hs]
        obtain ⟨s1, hs1, hl⟩ := deviceLoop_pass os t pat fuel rest pre (idx + 1) u hu0 hpre2
        exact ⟨s1, hs1, by rw [e1]; simp only; rw [hl, hidx]⟩
      · cases e2
      · cases e2
    · rw [if_neg hd]
      obtain ⟨s1, hs1, hl⟩ := deviceLoop_pass os t pat fuel rest pre (idx + 1) s hs hpre2
      exact ⟨s1, hs1, by rw [hl, hidx]⟩

theorem parentWalk_withDevices (os : Platform) (l : List DeviceEntry) (pat : String) :
    ∀ (fuel : Nat) (h : DEVINST) (s : Process),
      parentWalk (os.withDevices l) pat fuel h s = parentWalk os pat fuel h s
  | 0, _, _ => rfl
  | fuel + 1, h, s => by
    rw [parentWalk_succ, parentWalk_succ]
    have e1 : readableParent (os.withDevices l) h = readableParent os h := rfl
    have e2 : GetParentDeviceInstanceId (os.withDevices l) h s
        = GetParentDeviceInstanceId os h s := rfl
    have e3 : (os.withDevices l).wregex pat = os.wregex pat := rfl
    rw [e1, e2, e3]
    cases readableParent os h with
    | none => rfl
    | some q =>
      obtain ⟨id, p⟩ := q
      dsimp only
      cases os.wregex pat with
      | none => rfl
      | some m =>
        dsimp only
        split
        · rfl
        · exact parentWalk_withDevices os l pat fuel p _

/-- C8, as amended: the entries equal to the target are walked in
enumeration order, and the first of them whose walk reaches a matching
ancestor wins: the output and exit status of `main` are those of the walk
started from the handle of that entry alone, whatever comes later in the
enumeration; selected entries before it, whose walk ends without a match, do
not end the enumeration. -/
theorem first_printing_entry_wins (os : Platform) (fuel : Nat) (prog t pat : String)
    (pre post : List DeviceEntry) (e : DeviceEntry) (s2 : Process)
    (hdevs : os.SetupDiGetClassDevs t = some (pre ++ e :: post))
    (hpre : ∀ d ∈ pre, Selected os t d →
      ∃ s1, parentWalk os pat fuel d.DevInst Process.start = some (.cont () s1))
    (he : Selected os t e)
    (hwalk : parentWalk os pat fuel e.DevInst Process.start = some (.exit 0 s2)) :
    (main os fuel ⟨prog, [t, pat]⟩).map Result.observable = some (s2.stdout, Exit.status 0)
    ∧ (main (os.withDevices [e]) fuel ⟨prog, [t, pat]⟩).map Result.observable
        = some (s2.stdout, Exit.status 0) := by
  have he2 : lstrcmpi os t e.DeviceInstanceId = 0 := he
  have hexit : ∀ s : Process, s.stdout = "" →
      ∃ u, parentWalk os pat fuel e.DevInst s = some (.exit 0 u) ∧ u.stdout = s2.stdout := by
    intro s hs
    have hq := parentWalk_from_quiet os pat fuel e.DevInst s hs
    rw [hwalk] at hq
    rcases visible_eq_cases hq
      with ⟨_, e2⟩ | ⟨a, u, u2, _, e2, _⟩ | ⟨n, u, u2, e1, e2, hu⟩ | ⟨u, u2, _, e2, _⟩
    · cases e2
    · cases e2
    · cases e2
      exact ⟨u, e1, hu⟩
    · cases e2
  constructor
  · obtain ⟨s1, hs1, hl⟩ := deviceLoop_pass os t pat fuel (e :: post) pre 0
      (Process.start.call (.SetupDiGetClassDevs t)) rfl hpre
    obtain ⟨u, hu, hu2⟩ := hexit s1 hs1
    rw [main_two_args, hdevs]
    simp only [hl, deviceLoop, if_pos he2, hu]
    simp [Result.observable, Process.finish, hu2]
  · obtain ⟨u, hu, hu2⟩ := hexit (Process.start.call (.SetupDiGetClassDevs t)) rfl
    have hu3 : parentWalk (os.withDevices [e]) pat fuel e.DevInst
        (Process.start.call (.SetupDiGetClassDevs t)) = some (.exit 0 u) := by
      rw [parentWalk_withDevices]; exact hu
    have he3 : lstrcmpi (os.withDevices [e]) t e.DeviceInstanceId = 0 := he
    have hd3 : (os.withDevices [e]).SetupDiGetClassDevs t = some [e] := rfl
    rw [main_two_args, hd3]
    simp only [deviceLoop, if_pos he3, hu3]
    simp [Result.observable, Process.finish, hu2]

theorem GetParentDeviceInstanceId_calls (os : Platform) (h : DEVINST) (s : Process) :
    ∃ extra, (GetParentDeviceInstanceId os h s).2.calls = s.calls ++ extra := by
  unfold GetParentDeviceInstanceId
  cases hp : os.CM_Get_Parent h with
  | none => exact ⟨_, rfl⟩
  | some p =>
    simp only
    cases hi : os.CM_Get_Device_ID p with
    | none => exact ⟨[.CM_Get_Parent h, .CM_Get_Device_ID p], by simp [Process.call]⟩
    | some id => exact ⟨[.CM_Get_Parent h, .CM_Get_Device_ID p], by simp [Process.call]⟩

/-- The enumeration loop under a pattern that does not compile: the run is
aborted at the first selected entry that has a readable parent, and runs to
the end of the enumeration when there is none. -/
theorem deviceLoop_malformed (os : Platform) (t pat : String) (f : Nat)
    (hbad : os.wregex pat = none) :
    ∀ (devs : List DeviceEntry) (idx : Nat) (s : Process),
      ∃ s2, s2.stdout = s.stdout ∧ (∃ extra, s2.calls = s.calls ++ extra) ∧
        deviceLoop os t pat (f + 1) devs idx s =
          if devs.any (fun d => decide (Selected os t d)
              && (readableParent os d.DevInst).isSome) = true then some (.throw s2)
          else some (.cont (idx + devs.length) s2)
  | [], idx, s => ⟨s, rfl, ⟨[], by simp⟩, by simp [deviceLoop]⟩
  | d :: rest, idx, s => by
    have hidx : idx + 1 + rest.length = idx + (d :: rest).length := by
      simp only [List.length_cons]; omega
    rw [deviceLoop, List.any_cons]
    by_cases hd : lstrcmpi os t d.DeviceInstanceId = 0
    · have hsel : decide (Selected os t d) = true := decide_eq_true hd
      rw [if_pos hd, parentWalk_succ, hsel, Bool.true_and]
      cases hrp : readableParent os d.DevInst with
      | none =>
        obtain ⟨s2, h1, ⟨x2, h2⟩, h3⟩ := deviceLoop_malformed os t pat f hbad rest (idx + 1)
          (GetParentDeviceInstanceId os d.DevInst s).2
        obtain ⟨x1, hx1⟩ := GetParentDeviceInstanceId_calls os d.DevInst s
        refine ⟨s2, by rw [h1, GetParentDeviceInstanceId_stdout],
          ⟨x1 ++ x2, by rw [h2, hx1, List.append_assoc]⟩, ?_⟩
        simp only [h3, Option.isSome_none, Bool.false_or, hidx]
      | some q =>
        obtain ⟨id, p⟩ := q
        obtain ⟨x1, hx1⟩ := GetParentDeviceInstanceId_calls os d.DevInst s
        refine ⟨(GetParentDeviceInstanceId os d.DevInst s).2.call (.wregex pat),
          by simp [Process.call, GetParentDeviceInstanceId_stdout],
          ⟨x1 ++ [.wregex pat], by simp [Process.call, hx1]⟩, ?_⟩
        simp [hbad]
    · have hsel : decide (Selected os t d) = false := decide_eq_false hd
      rw [if_neg hd, hsel, Bool.false_and, Bool.false_or]
      obtain ⟨s2, h1, h2, h3⟩ := deviceLoop_malformed os t pat f hbad rest (idx + 1) s
      exact ⟨s2, h1, h2, by rw [h3, hidx]⟩

/-- C9, as amended: with a pattern that does not compile, `main` called with
two positional arguments requests the device set first and compiles the
pattern only when the identifier of a parent is to be tested.  The run is
aborted by the pattern error exactly when some enumerated entry equal to the
target has a parent whose identifier can be read; otherwise it ends with
status 3 (no device set), 2 (empty enumeration) or 0.  Nothing is printed. -/
theorem malformed_pattern_fails_lazily (os : Platform) (fuel : Nat) (prog t pat : String)
    (hbad : os.wregex pat = none) (hfuel : 0 < fuel) :
    ∃ r, main os fuel ⟨prog, [t, pat]⟩ = some r
      ∧ r.stdout = ""
      ∧ r.calls.head? = some (.SetupDiGetClassDevs t)
      ∧ r.exit =
        match os.SetupDiGetClassDevs t with
        | none => .status ERR_NO_DEVICE_INFO
        | some devs =>
          if devs.any (fun d => decide (Selected os t d)
              && (readableParent os d.DevInst).isSome) = true then .regex_error
          else if devs = [] then .status ERR_NO_DEVICES_FOUND
          else .status 0 := by
  obtain ⟨f, rfl⟩ : ∃ f, fuel = f + 1 := ⟨fuel - 1, by omega⟩
  rw [main_two_args]
  cases hd : os.SetupDiGetClassDevs t with
  | none => exact ⟨_, rfl, rfl, rfl, rfl⟩
  | some devs =>
    obtain ⟨s2, h1, ⟨extra, h2⟩, h3⟩ := deviceLoop_malformed os t pat f hbad devs 0
      (Process.start.call (.SetupDiGetClassDevs t))
    have hcalls : s2.calls.head? = some (.SetupDiGetClassDevs t) := by
      rw [h2]; simp [Process.call, Process.start]
    have hout : s2.stdout = "" := by rw [h1]; rfl
    dsimp only
    rw [h3]
    by_cases hany : devs.any (fun d => decide (Selected os t d)
        && (readableParent os d.DevInst).isSome) = true
    · rw [if_pos hany, if_pos hany]
      exact ⟨_, rfl, hout, hcalls, rfl⟩
    · rw [if_neg hany, if_neg hany]
      dsimp only
      cases devs with
      | nil => exact ⟨_, rfl, hout, hcalls, rfl⟩
      | cons d rest =>
        have hne : ¬ (0 + (d :: rest).length = 0) := by simp
        rw [if_neg hne]
        exact ⟨_, rfl, hout, hcalls, by simp [Process.finish]⟩

/-! ## Facts about the scenario -/

theorem Demo.parent_cases (h p : DEVINST) (hp : Demo.parent h = some p) :
    (h = 1 ∧ p = 2) ∨ (h = 2 ∧ p = 3) := by
  unfold Demo.parent at hp
  split at hp
  · exact Or.inl ⟨rfl, (Option.some.inj hp).symm⟩
  · exact Or.inr ⟨rfl, (Option.some.inj hp).symm⟩
  · cases hp

theorem Demo.ancestor_gt : ∀ (k : Nat) (h a : DEVINST),
    ancestor Demo.os k h = some a → h < a ∧ (a = 2 ∨ a = 3)
  | 0, h, a, ha => by
    rcases Demo.parent_cases h a ha with ⟨rfl, rfl⟩ | ⟨rfl, rfl⟩ <;> simp
  | k + 1, h, a, ha => by
    cases hp : Demo.os.CM_Get_Parent h with
    | none => rw [ancestor_succ_of_root Demo.os _ h hp] at ha; cases ha
    | some p =>
      rw [ancestor_succ_of_parent Demo.os k h p hp] at ha
      obtain ⟨hlt, hor⟩ := Demo.ancestor_gt k p a ha
      have hhp : h < p := by
        rcases Demo.parent_cases h p hp with ⟨rfl, rfl⟩ | ⟨rfl, rfl⟩ <;> decide
      exact ⟨Nat.lt_trans hhp hlt, hor⟩

theorem Demo.acyclic : Acyclic Demo.os :=
  fun h k hk => Nat.lt_irrefl h (Demo.ancestor_gt k h h hk).1

theorem Demo.finiteTree : FiniteTree Demo.os 3 := by
  intro h hh
  cases hp : Demo.os.CM_Get_Parent h with
  | none => rfl
  | some p =>
    rcases Demo.parent_cases h p hp with ⟨rfl, _⟩ | ⟨rfl, _⟩ <;> exact absurd hh (by decide)

theorem Demo.ancestor_readable (k : Nat) (h a : DEVINST)
    (ha : ancestor Demo.os k h = some a) :
    (a = 2 ∧ Demo.os.CM_Get_Device_ID a = some "B\\Y\\2")
      ∨ (a = 3 ∧ Demo.os.CM_Get_Device_ID a = some "C\\Z\\3") := by
  rcases (Demo.ancestor_gt k h a ha).2 with rfl | rfl
  · exact Or.inl ⟨rfl, rfl⟩
  · exact Or.inr ⟨rfl, rfl⟩

theorem Demo.anything_matches : ∀ x, Demo.anything x = true := by
  intro x
  unfold Demo.anything Demo.matchPieces
  generalize x.data = l
  induction l with
  | nil => rfl
  | cons c cs ih => simp [Demo.matchStar, Demo.Atom.accepts, ih]

theorem Demo.wregex_startsWithC : Demo.os.wregex "C\\\\.*" = some Demo.startsWithC := by rfl

theorem Demo.wregex_anything : Demo.os.wregex ".*" = some Demo.anything := by rfl

theorem Demo.wregex_startsWithNope : Demo.os.wregex "NOPE.*" = some Demo.startsWithNope := by
  rfl

theorem Demo.wregex_malformed : Demo.os.wregex "(" = none := by rfl

/-! ## The claims on the scenario -/

/-- C1 on the scenario: from `A\X\1` with the pattern `C\\.*` the walk skips
`B\Y\2` and prints `C\Z\3`; so it does with the pattern `C*\\.\\3*`, which
matches the part `\Y\` of `B\Y\2` but not the whole of it. -/
theorem nearest_matching_ancestor_is_printed_witness :
    Demo.devices.filter (fun d => decide (Selected Demo.os "a\\x\\1" d)) = [⟨"A\\X\\1", 1⟩]
    ∧ Demo.startsWithC "B\\Y\\2" = false
    ∧ (Demo.wregex "C*\\\\.\\\\3*").map (fun m => (m "\\Y\\", m "B\\Y\\2", m "C\\Z\\3"))
        = some (true, false, true)
    ∧ (main Demo.os 3 ⟨"get-parent-device.exe", ["a\\x\\1", "C*\\\\.\\\\3*"]⟩).map
          Result.observable
        = some ("C\\Z\\3\n", Exit.status 0)
    ∧ (main Demo.os 3 ⟨"get-parent-device.exe", ["a\\x\\1", "C\\\\.*"]⟩).map Result.observable
        = some ("C\\Z\\3\n", Exit.status 0) := by
  refine ⟨by decide, by decide, by decide, by decide, ?_⟩
  obtain ⟨k, a, id, ha, hid, hm, _, _, hmain⟩ :=
    nearest_matching_ancestor_is_printed Demo.os Demo.startsWithC "get-parent-device.exe"
      "a\\x\\1" "C\\\\.*" Demo.devices ⟨"A\\X\\1", 1⟩ Demo.acyclic Demo.wregex_startsWithC rfl
      (by decide)
      (fun j b hb => by
        rcases Demo.ancestor_readable j 1 b hb with ⟨_, h⟩ | ⟨_, h⟩ <;> exact ⟨_, h⟩)
      ⟨1, 3, "C\\Z\\3", rfl, rfl, by decide⟩
  have hk : k < 3 := by
    match k, ha with
    | 0, _ => decide
    | 1, _ => decide
    | k + 2, ha =>
      have h1 : ancestor Demo.os (k + 2) 1 = ancestor Demo.os (k + 1) 2 :=
        ancestor_succ_of_parent Demo.os (k + 1) 1 2 rfl
      have h2 : ancestor Demo.os (k + 1) 2 = ancestor Demo.os k 3 :=
        ancestor_succ_of_parent Demo.os k 2 3 rfl
      have h3 : ancestor Demo.os (k + 2) 1 = some a := ha
      rw [h1, h2, ancestor_succ_of_root Demo.os k 3 rfl] at h3
      cases h3
  have hid3 : id = "C\\Z\\3" := by
    rcases Demo.ancestor_readable k 1 a ha with ⟨_, h⟩ | ⟨_, h⟩
    · rw [h] at hid
      rw [← Option.some.inj hid] at hm
      exact absurd hm (by decide)
    · rw [h] at hid
      exact (Option.some.inj hid).symm
  rw [hmain 3 hk, hid3]
  rfl

/-- C2 fails on the scenario: the device `D\W\4` is not in the enumeration,
which is not empty, and the status is 0, not 2. -/
theorem absent_device_status_counterexample :
    Demo.os.SetupDiGetClassDevs "D\\W\\4" = some Demo.devices
    ∧ (∀ d ∈ Demo.devices, ¬ Selected Demo.os "D\\W\\4" d)
    ∧ main Demo.os 1 ⟨"get-parent-device.exe", ["D\\W\\4", ".*"]⟩
        = some ⟨"", [.SetupDiGetClassDevs "D\\W\\4"], .status 0⟩
    ∧ Exit.status 0 ≠ Exit.status ERR_NO_DEVICES_FOUND := by
  refine ⟨rfl, by decide, by decide, by decide⟩

/-- C2, as amended, on the scenario and on the scenario without devices. -/
theorem absent_device_exit_status_witness :
    main Demo.os 1 ⟨"get-parent-device.exe", ["D\\W\\4", ".*"]⟩
        = some ⟨"", [.SetupDiGetClassDevs "D\\W\\4"], .status 0⟩
    ∧ main (Demo.os.withDevices []) 1 ⟨"get-parent-device.exe", ["D\\W\\4", ".*"]⟩
        = some ⟨"", [.SetupDiGetClassDevs "D\\W\\4"], .status 2⟩ :=
  ⟨absent_device_exit_status Demo.os 1 "get-parent-device.exe" "D\\W\\4" ".*" Demo.devices rfl
      (by decide),
    absent_device_exit_status (Demo.os.withDevices []) 1 "get-parent-device.exe" "D\\W\\4" ".*"
      [] rfl (by decide)⟩

set_option maxRecDepth 100000 in
/-- C3 on the scenario: one argument, no device set, empty device set. -/
theorem failure_exit_statuses_witness :
    main Demo.os 0 ⟨"C:\\tools\\get-parent-device.exe", ["A\\X\\1"]⟩
        = some ⟨"Usage:\n\n\tget-parent-device.exe DII PATTERN\n\nArguments:\n\n\tDII     - Device Instance ID of the Device whose parent is to be found\n\tPATTERN - Regular expression to match Parent's Device Instance ID\n\nExamples:\n\nExample 1. Get immediate parent:\n\n\tget-parent-device.exe \"USBSTOR\\DISK&VEN_GENERIC&PROD_STORAGE_DEVICE&REV_0207\\000000000207&0\" \".*\"\n\nIn this case the \".*\" will cause first found parent to be returned.\n\nExample 2. Get usb hub the device is connected to:\n\n\tget-parent-device.exe \"USBSTOR\\DISK&VEN_GENERIC&PROD_STORAGE_DEVICE&REV_0207\\000000000207&0\" \".*\\\\ROOT_HUB.*\"\n\nThe program will search \"up\" the device tree until it finds a parent with a matching Device Instance ID.\n\n",
          [], .status 1⟩
    ∧ main ⟨fun _ => none, Demo.parent, Demo.ident, Char.toLower, Demo.wregex⟩ 0
          ⟨"get-parent-device.exe", ["A\\X\\1", ".*"]⟩
        = some ⟨"", [.SetupDiGetClassDevs "A\\X\\1"], .status 3⟩
    ∧ main (Demo.os.withDevices []) 0 ⟨"get-parent-device.exe", ["A\\X\\1", ".*"]⟩
        = some ⟨"", [.SetupDiGetClassDevs "A\\X\\1"], .status 2⟩ :=
  ⟨((failure_exit_statuses Demo.os 0 ⟨"C:\\tools\\get-parent-device.exe", ["A\\X\\1"]⟩).1
      (by decide)).1.trans rfl,
    (failure_exit_statuses ⟨fun _ => none, Demo.parent, Demo.ident, Char.toLower, Demo.wregex⟩ 0
      ⟨"get-parent-device.exe", ["A\\X\\1", ".*"]⟩).2.1 (by decide) rfl,
    (failure_exit_statuses (Demo.os.withDevices []) 0
      ⟨"get-parent-device.exe", ["A\\X\\1", ".*"]⟩).2.2.1 (by decide) rfl⟩

/-- C4 fails on the scenario: the malformed pattern `(` matches no
identifier, the device `A\X\1` is found, and the run is aborted by the pattern
error at its parent instead of ending with status 0. -/
theorem no_matching_ancestor_counterexample :
    Acyclic Demo.os ∧ FiniteTree Demo.os 3
    ∧ Demo.os.wregex "(" = none
    ∧ Demo.devices.filter (fun d => decide (Selected Demo.os "A\\X\\1" d)) = [⟨"A\\X\\1", 1⟩]
    ∧ main Demo.os 4 ⟨"get-parent-device.exe", ["A\\X\\1", "("]⟩
        = some ⟨"",
            [.SetupDiGetClassDevs "A\\X\\1", .CM_Get_Parent 1, .CM_Get_Device_ID 2, .wregex "("],
            .regex_error⟩
    ∧ Exit.regex_error ≠ Exit.status 0 :=
  ⟨Demo.acyclic, Demo.finiteTree, rfl, by decide, by decide, by decide⟩

/-- C4, as amended, on the scenario: with the pattern `NOPE.*` the run from
`A\X\1` prints nothing and ends with status 0, and so does the run from the
root `C\Z\3` with the malformed pattern `(`. -/
theorem no_matching_ancestor_is_silent_witness :
    (main Demo.os 4 ⟨"get-parent-device.exe", ["A\\X\\1", "NOPE.*"]⟩).map Result.observable
        = some ("", Exit.status 0)
    ∧ (main Demo.os 4 ⟨"get-parent-device.exe", ["C\\Z\\3", "("]⟩).map Result.observable
        = some ("", Exit.status 0) :=
  ⟨no_matching_ancestor_is_silent Demo.os "get-parent-device.exe" "A\\X\\1"
      "NOPE.*" Demo.devices 3 4 Demo.acyclic Demo.finiteTree rfl
      ⟨⟨"A\\X\\1", 1⟩, by decide, by decide⟩
      (fun d _ _ k a id m ha hid hm => by
        have hm2 : m = Demo.startsWithNope :=
          Option.some.inj (hm.symm.trans Demo.wregex_startsWithNope)
        subst hm2
        rcases Demo.ancestor_readable k d.DevInst a ha with ⟨_, h⟩ | ⟨_, h⟩
        · rw [h] at hid
          rw [← Option.some.inj hid]
          decide
        · rw [h] at hid
          rw [← Option.some.inj hid]
          decide)
      (Or.inl ⟨Demo.startsWithNope, Demo.wregex_startsWithNope⟩)
      (by decide),
    no_matching_ancestor_is_silent Demo.os "get-parent-device.exe" "C\\Z\\3"
      "(" Demo.devices 3 4 Demo.acyclic Demo.finiteTree rfl
      ⟨⟨"C\\Z\\3", 3⟩, by decide, by decide⟩
      (fun _ _ _ _ _ _ m _ _ hm => by
        have hbad : Demo.os.wregex "(" = some m := hm
        rw [Demo.wregex_malformed] at hbad
        cases hbad)
      (Or.inr (by decide))
      (by decide)⟩

/-- C5 on the scenario: with the pattern `.*` the immediate parent `B\Y\2` is
printed after one parent lookup. -/
theorem match_anything_prints_immediate_parent_witness :
    main Demo.os 3 ⟨"get-parent-device.exe", ["A\\X\\1", ".*"]⟩
      = some ⟨"B\\Y\\2\n",
          [.SetupDiGetClassDevs "A\\X\\1", .CM_Get_Parent 1, .CM_Get_Device_ID 2, .wregex ".*"],
          .status 0⟩ :=
  match_anything_prints_immediate_parent Demo.os 3 "get-parent-device.exe" "A\\X\\1" ".*"
    [] [⟨"B\\Y\\2", 2⟩, ⟨"C\\Z\\3", 3⟩] ⟨"A\\X\\1", 1⟩ 2 "B\\Y\\2" Demo.anything rfl
    (by decide) (by decide) rfl rfl Demo.wregex_anything Demo.anything_matches (by decide)

/-- C6 on the scenario: the targets `a\x\1` and `A\X\1` give the same run. -/
theorem lookup_is_case_insensitive_witness :
    SameUpToCase Demo.os "a\\x\\1" "A\\X\\1"
    ∧ (main Demo.os 3 ⟨"get-parent-device.exe", ["a\\x\\1", ".*"]⟩).map Result.observable
        = (main Demo.os 3 ⟨"get-parent-device.exe", ["A\\X\\1", ".*"]⟩).map Result.observable
    ∧ Selected Demo.os "a\\x\\1" ⟨"A\\X\\1", 1⟩ :=
  have hcase : SameUpToCase Demo.os "a\\x\\1" "A\\X\\1" :=
    (lstrcmpi_eq_zero Demo.os "a\\x\\1" "A\\X\\1").mp (by decide)
  have h := lookup_is_case_insensitive Demo.os 3 "get-parent-device.exe" "a\\x\\1" "A\\X\\1"
    ".*" hcase rfl
  ⟨hcase, h.2.1, h.2.2 ⟨"A\\X\\1", 1⟩ hcase⟩

/-- C8 fails on the platform with two entries equal up to letter case: the
first selected entry is a root, whose walk alone prints nothing, and `main`
prints the parent of the second entry. -/
theorem first_match_wins_counterexample :
    Twins.os.SetupDiGetClassDevs "USB\\DISK\\1" = some Twins.devices
    ∧ Twins.devices.filter (fun d => decide (Selected Twins.os "USB\\DISK\\1" d))
        = [⟨"USB\\DISK\\1", 10⟩, ⟨"usb\\disk\\1", 11⟩]
    ∧ (main (Twins.os.withDevices [⟨"USB\\DISK\\1", 10⟩]) 3
          ⟨"get-parent-device.exe", ["USB\\DISK\\1", ".*"]⟩).map Result.observable
        = some ("", Exit.status 0)
    ∧ (main Twins.os 3 ⟨"get-parent-device.exe", ["USB\\DISK\\1", ".*"]⟩).map Result.observable
        = some ("ROOT\\HUB\\0\n", Exit.status 0) := by
  refine ⟨rfl, by decide, by decide, by decide⟩

/-- C8, as amended, on the platform with two entries equal up to letter
case: the second entry is the first whose walk prints, and it wins. -/
theorem first_printing_entry_wins_witness :
    (main Twins.os 3 ⟨"get-parent-device.exe", ["USB\\DISK\\1", ".*"]⟩).map Result.observable
        = some ("ROOT\\HUB\\0\n", Exit.status 0)
    ∧ (main (Twins.os.withDevices [⟨"usb\\disk\\1", 11⟩]) 3
          ⟨"get-parent-device.exe", ["USB\\DISK\\1", ".*"]⟩).map Result.observable
        = some ("ROOT\\HUB\\0\n", Exit.status 0) :=
  first_printing_entry_wins Twins.os 3 "get-parent-device.exe" "USB\\DISK\\1" ".*"
    [⟨"USB\\DISK\\1", 10⟩] [] ⟨"usb\\disk\\1", 11⟩
    ⟨"ROOT\\HUB\\0\n", [.CM_Get_Parent 11, .CM_Get_Device_ID 12, .wregex ".*"]⟩ rfl
    (fun d hd _ => by
      rw [List.mem_singleton] at hd
      subst hd
      exact ⟨_, rfl⟩)
    (by decide) rfl

/-- C9 fails on the scenario: with the malformed pattern `(` the device set
is requested, and the run ends with status 0 when the device is absent or has
no parent, and with status 2 when the enumeration is empty. -/
theorem malformed_pattern_counterexample :
    Demo.os.wregex "(" = none
    ∧ main Demo.os 3 ⟨"get-parent-device.exe", ["D\\W\\4", "("]⟩
        = some ⟨"", [.SetupDiGetClassDevs "D\\W\\4"], .status 0⟩
    ∧ main Demo.os 3 ⟨"get-parent-device.exe", ["C\\Z\\3", "("]⟩
        = some ⟨"", [.SetupDiGetClassDevs "C\\Z\\3", .CM_Get_Parent 3], .status 0⟩
    ∧ main (Demo.os.withDevices []) 3 ⟨"get-parent-device.exe", ["A\\X\\1", "("]⟩
        = some ⟨"", [.SetupDiGetClassDevs "A\\X\\1"], .status 2⟩ := by
  refine ⟨rfl, by decide, by decide, by decide⟩

/-- C9, as amended, on the scenario: with the malformed pattern `(` the run
from `A\X\1` is aborted by the pattern error, after the device set has been
requested. -/
theorem malformed_pattern_fails_lazily_witness :
    ∃ r, main Demo.os 1 ⟨"get-parent-device.exe", ["A\\X\\1", "("]⟩ = some r
      ∧ r.stdout = ""
      ∧ r.calls.head? = some (.SetupDiGetClassDevs "A\\X\\1")
      ∧ r.exit = .regex_error := by
  obtain ⟨r, hr, hout, hcalls, hexit⟩ :=
    malformed_pattern_fails_lazily Demo.os 1 "get-parent-device.exe" "A\\X\\1" "("
      Demo.wregex_malformed (by decide)
  exact ⟨r, hr, hout, hcalls, hexit.trans (by decide)⟩

/-- C10 on the scenario with a fault: the identifier of the parent of `B\Y\2`
cannot be read, and the run is the one over the tree in which `B\Y\2` is a
root. -/
theorem failed_lookup_is_a_root_witness :
    Demo.faulty.CM_Get_Parent 2 = some 3 ∧ Demo.faulty.CM_Get_Device_ID 3 = none
    ∧ (main Demo.faulty 3 ⟨"get-parent-device.exe", ["A\\X\\1", "C\\\\.*"]⟩).map
          Result.observable
        = (main (Demo.faulty.withRoot 2) 3
            ⟨"get-parent-device.exe", ["A\\X\\1", "C\\\\.*"]⟩).map Result.observable :=
  ⟨rfl, rfl,
    ((failed_lookup_is_a_root Demo.faulty).2 2 (Or.inr ⟨3, rfl, rfl⟩)).1 3
      ⟨"get-parent-device.exe", ["A\\X\\1", "C\\\\.*"]⟩⟩

end GetParentDevice
